import Mathlib

/-
Verification of the picteus extension runtime against its specification.

The repository ships several Python extension instances (embeddings, bria,
stable-diffusion-upscaler, flux, example-python, template-python) built on a
host SDK.  The SDK itself (picteus_extension_sdk: transport channel, intent
correlator, event dispatcher, worker offload pool) is not part of the
repository sources, so those components are modelled from the specification;
every definition taken from an instance source file names the file and lines
it embeds.
-/

set_option maxHeartbeats 1000000

/-- A Python-style exception value, used by the shallow embedding of the
extension instances: KeyError for a missing dictionary key, AttributeError
for a never-assigned attribute, TypeError for an unsupported comparison and
a generic raised exception from a library call. -/
inductive PyErr where
  | keyError (key : String)
  | attributeError (attr : String)
  | typeError (msg : String)
  | raised (msg : String)
deriving DecidableEq

/-- Lookup of a key in a Python dictionary modelled as an association list;
returns none when the key is absent (the embedding turns that into a
KeyError where the source subscripts the dictionary). -/
def pyLookup {α : Type} : List (String × α) → String → Option α
  | [], _ => none
  | (k, v) :: rest, key => if k == key then some v else pyLookup rest key

/-- Python truthiness of a string value: a string is truthy exactly when it
is non-empty. -/
def pyTruthy (s : String) : Bool := !(s == "")

namespace NotificationEvent

/-- Modelled from the spec: the event-kind constants of the missing SDK
module picteus_extension_sdk.picteus_extension.  Spec section 3 describes
EventKind as an open enumeration of lifecycle and domain events; the members
are modelled as distinct, non-empty string tags, which is all the instance
code relies on (string equality and Python truthiness). -/
def IMAGE_CREATED : String := "imageCreated"

/-- Modelled from the spec: SDK event-kind constant, see IMAGE_CREATED. -/
def IMAGE_UPDATED : String := "imageUpdated"

/-- Modelled from the spec: SDK event-kind constant, see IMAGE_CREATED. -/
def IMAGE_DELETED : String := "imageDeleted"

/-- Modelled from the spec: SDK event-kind constant, see IMAGE_CREATED. -/
def IMAGE_COMPUTE_TAGS : String := "imageComputeTags"

/-- Modelled from the spec: SDK event-kind constant, see IMAGE_CREATED. -/
def IMAGE_COMPUTE_FEATURES : String := "imageComputeFeatures"

/-- Modelled from the spec: SDK event-kind constant, see IMAGE_CREATED. -/
def IMAGE_COMPUTE_EMBEDDINGS : String := "imageComputeEmbeddings"

/-- Modelled from the spec: SDK event-kind constant, see IMAGE_CREATED. -/
def TEXT_COMPUTE_EMBEDDINGS : String := "textComputeEmbeddings"

/-- Modelled from the spec: SDK event-kind constant, see IMAGE_CREATED. -/
def PROCESS_RUN_COMMAND : String := "processRunCommand"

/-- Modelled from the spec: SDK event-kind constant, see IMAGE_CREATED. -/
def IMAGE_RUN_COMMAND : String := "imageRunCommand"

end NotificationEvent

/-- Branches of template-python on_event
(src/server/assets/extensions-generators/template-python/main.py lines
11-23): the image-touched branch, the image-command branch, or falling
through to return None. -/
inductive TemplateBranch where
  | imageTouched
  | imageCommandBranch
  | noOp
deriving DecidableEq

/-- Routing performed by template-python on_event
(src/server/assets/extensions-generators/template-python/main.py lines
11-23): an if over IMAGE_CREATED, IMAGE_UPDATED, IMAGE_DELETED, an elif over
IMAGE_RUN_COMMAND, and an implicit fall-through returning None. -/
def template_on_event_route (event : String) : TemplateBranch :=
  if event == NotificationEvent.IMAGE_CREATED || event == NotificationEvent.IMAGE_UPDATED
      || event == NotificationEvent.IMAGE_DELETED then
    TemplateBranch.imageTouched
  else if event == NotificationEvent.IMAGE_RUN_COMMAND then
    TemplateBranch.imageCommandBranch
  else
    TemplateBranch.noOp

/-- Branches of flux on_event (src/extensions/instances/flux/main.py lines
26-33): the process-command branch or falling through to return None. -/
inductive FluxBranch where
  | processCommandBranch
  | noOp
deriving DecidableEq

/-- Routing performed by flux on_event
(src/extensions/instances/flux/main.py lines 26-33): a single if over
PROCESS_RUN_COMMAND and an implicit fall-through returning None. -/
def flux_on_event_route (event : String) : FluxBranch :=
  if event == NotificationEvent.PROCESS_RUN_COMMAND then
    FluxBranch.processCommandBranch
  else
    FluxBranch.noOp

/-- Event kinds template-python declares handling for (the kinds the if and
elif conditions of its on_event compare against). -/
def template_declared_kinds : List String :=
  [NotificationEvent.IMAGE_CREATED, NotificationEvent.IMAGE_UPDATED,
   NotificationEvent.IMAGE_DELETED, NotificationEvent.IMAGE_RUN_COMMAND]

/-- Event kinds flux declares handling for. -/
def flux_declared_kinds : List String := [NotificationEvent.PROCESS_RUN_COMMAND]

/-- The first condition of example-python on_event
(src/extensions/instances/example-python/main.py line 34), embedded exactly
as written in the source: the first three disjuncts compare the event to a
constant, while the last two disjuncts are the bare constants
NotificationEvent.IMAGE_COMPUTE_TAGS and
NotificationEvent.IMAGE_COMPUTE_FEATURES, so they contribute their Python
truthiness rather than a comparison. -/
def example_on_event_cond (event : String) : Bool :=
  event == NotificationEvent.IMAGE_CREATED || event == NotificationEvent.IMAGE_UPDATED
    || event == NotificationEvent.IMAGE_DELETED
    || pyTruthy NotificationEvent.IMAGE_COMPUTE_TAGS
    || pyTruthy NotificationEvent.IMAGE_COMPUTE_FEATURES

/-- Branches of example-python on_event
(src/extensions/instances/example-python/main.py lines 33-152): the image
branch, the PROCESS_RUN_COMMAND elif branch, the IMAGE_RUN_COMMAND elif
branch, or falling through to return None. -/
inductive ExampleBranch where
  | imageBranch
  | processCommandBranch
  | imageCommandBranch
  | noOp
deriving DecidableEq

/-- Routing performed by example-python on_event
(src/extensions/instances/example-python/main.py lines 33-152): the first if
uses example_on_event_cond, followed by elif branches on PROCESS_RUN_COMMAND
and IMAGE_RUN_COMMAND and an implicit fall-through returning None. -/
def example_on_event_route (event : String) : ExampleBranch :=
  if example_on_event_cond event then
    ExampleBranch.imageBranch
  else if event == NotificationEvent.PROCESS_RUN_COMMAND then
    ExampleBranch.processCommandBranch
  else if event == NotificationEvent.IMAGE_RUN_COMMAND then
    ExampleBranch.imageCommandBranch
  else
    ExampleBranch.noOp

/-- The first observable action of each branch of example-python on_event:
the image branch starts by subscripting value with key id (line 35), the
PROCESS_RUN_COMMAND branch by subscripting with key commandId (line 49),
the IMAGE_RUN_COMMAND branch likewise (line 113), and the fall-through
returns None. -/
inductive ExampleAction where
  | readImageId (v : String)
  | readProcessCommandId (v : String)
  | readImageCommandId (v : String)
  | returnedNone
deriving DecidableEq

/-- The beginning of example-python on_event
(src/extensions/instances/example-python/main.py lines 33-152), embedded up
to the first dictionary access of the chosen branch: which branch runs and
which payload key it reads first (a missing key is a KeyError, as in
Python). -/
def example_on_event_first_action (event : String) (value : List (String × String)) :
    Except PyErr ExampleAction :=
  if example_on_event_cond event then
    match pyLookup value "id" with
    | some v => Except.ok (ExampleAction.readImageId v)
    | none => Except.error (PyErr.keyError "id")
  else if event == NotificationEvent.PROCESS_RUN_COMMAND then
    match pyLookup value "commandId" with
    | some v => Except.ok (ExampleAction.readProcessCommandId v)
    | none => Except.error (PyErr.keyError "commandId")
  else if event == NotificationEvent.IMAGE_RUN_COMMAND then
    match pyLookup value "commandId" with
    | some v => Except.ok (ExampleAction.readImageCommandId v)
    | none => Except.error (PyErr.keyError "commandId")
  else
    Except.ok ExampleAction.returnedNone

/-- State of the embeddings extension relevant to its resource guard
(src/extensions/instances/embeddings/main.py lines 20-25 and 62-76): the
lazily constructed model handle (None until clip.load succeeds) and the
number of clip.load invocations so far.  Handle identity is modelled by
numbering construction attempts, so the k-th clip.load call that succeeds
yields handle k. -/
structure EmbState where
  model : Option Nat
  loadCalls : Nat
deriving DecidableEq

/-- Sequential embedding of Embeddings._ensure_models
(src/extensions/instances/embeddings/main.py lines 62-76): under the lock,
if self.model is None the model is loaded via clip.load and assigned,
otherwise nothing happens.  loadFails models clip.load raising; in that case
the tuple assignment to self.model never happens (the field stays None, the
ssl context is restored by the finally block) and the exception propagates
to the caller.  The lock itself is treated in the concurrent model below;
this function is the body executed by one caller. -/
def ensure_models (loadFails : Bool) (s : EmbState) : EmbState × Option PyErr :=
  match s.model with
  | some _ => (s, none)
  | none =>
    if loadFails then
      ({ s with loadCalls := s.loadCalls + 1 }, some (PyErr.raised "clip.load failed"))
    else
      ({ model := some s.loadCalls, loadCalls := s.loadCalls + 1 }, none)

/-- State of the bria extension relevant to its resource guard
(src/extensions/instances/bria/main.py lines 21-24 and 90-93): the lazily
constructed pipeline handle and the number of pipeline construction calls. -/
structure BriaState where
  pipe : Option Nat
  pipelineCalls : Nat
deriving DecidableEq

/-- Sequential embedding of BriaExtension._ensure_pipeline
(src/extensions/instances/bria/main.py lines 90-93): if self._pipe is None
it is assigned the result of transformers.pipeline, with no lock around the
check.  callFails models the pipeline call raising, in which case the
assignment never happens. -/
def ensure_pipeline_bria (callFails : Bool) (s : BriaState) : BriaState × Option PyErr :=
  match s.pipe with
  | some _ => (s, none)
  | none =>
    if callFails then
      ({ s with pipelineCalls := s.pipelineCalls + 1 }, some (PyErr.raised "pipeline failed"))
    else
      ({ pipe := some s.pipelineCalls, pipelineCalls := s.pipelineCalls + 1 }, none)

/-- Handle held by the upscaler guard: loaded is the value assigned by
from_pretrained before the move to the device, onDevice the value after the
second assignment self._pipeline = self._pipeline.to(device). -/
inductive UpHandle where
  | loaded (n : Nat)
  | onDevice (n : Nat)
deriving DecidableEq

/-- State of the stable-diffusion-upscaler extension relevant to its
resource guard (src/extensions/instances/stable-diffusion-upscaler/main.py
lines 25-29 and 100-107). -/
structure UpsState where
  pipeline : Option UpHandle
  fromPretrainedCalls : Nat
deriving DecidableEq

/-- Sequential embedding of StableDiffusionUpscalerExtension._ensure_pipeline
(src/extensions/instances/stable-diffusion-upscaler/main.py lines 100-107):
if self._pipeline is None, the first statement assigns the result of
StableDiffusionUpscalePipeline.from_pretrained to self._pipeline, and a later
statement reassigns self._pipeline.to(device).  loadFails models
from_pretrained raising (nothing is assigned); toFails models the move to
the device raising, which happens after self._pipeline already holds the
un-moved pipeline. -/
def ensure_pipeline_upscaler (loadFails toFails : Bool) (s : UpsState) :
    UpsState × Option PyErr :=
  match s.pipeline with
  | some _ => (s, none)
  | none =>
    if loadFails then
      ({ s with fromPretrainedCalls := s.fromPretrainedCalls + 1 },
       some (PyErr.raised "from_pretrained failed"))
    else
      if toFails then
        ({ pipeline := some (UpHandle.loaded s.fromPretrainedCalls),
           fromPretrainedCalls := s.fromPretrainedCalls + 1 },
         some (PyErr.raised "pipeline.to device failed"))
      else
        ({ pipeline := some (UpHandle.onDevice s.fromPretrainedCalls),
           fromPretrainedCalls := s.fromPretrainedCalls + 1 }, none)

/-- Embedding of StableDiffusionUpscalerExtension._setup
(src/extensions/instances/stable-diffusion-upscaler/main.py lines 109-110):
the subscript value["maximumPixels"] raises KeyError when the settings lack
the key, otherwise the _maximum_pixels attribute is assigned the value,
which may itself be None. -/
def upscaler_setup (settings : List (String × Option Int)) : Except PyErr (Option Int) :=
  match pyLookup settings "maximumPixels" with
  | some v => Except.ok v
  | none => Except.error (PyErr.keyError "maximumPixels")

/-- Outcome of the pixel-limit gate at the top of
StableDiffusionUpscalerExtension._handle_image: either the image is refused
as too large (lines 56-60, before any download) or control proceeds to the
download and processing of the image (lines 62 onward). -/
inductive UpsGate where
  | rejectedTooLarge
  | downloadAndProcess
deriving DecidableEq

/-- Embedding of the pixel-limit comparison in
StableDiffusionUpscalerExtension._handle_image
(src/extensions/instances/stable-diffusion-upscaler/main.py lines 52-60):
maximumPixels is the state of the _maximum_pixels attribute, where the outer
none means the attribute was never assigned (line 28 of the source is a bare
annotation inside init, which creates no attribute), some none means _setup
stored the settings value None, and some (some m) means _setup stored the
numeric value m.  Reading a never-assigned attribute raises AttributeError;
comparing an int with None raises TypeError; both occur before image_download
on line 66 is reached. -/
def handle_image_gate (maximumPixels : Option (Option Int)) (width height : Int) :
    Except PyErr UpsGate :=
  match maximumPixels with
  | none => Except.error (PyErr.attributeError "_maximum_pixels")
  | some none => Except.error (PyErr.typeError "int gt NoneType unsupported")
  | some (some m) =>
    if width * height > m then Except.ok UpsGate.rejectedTooLarge
    else Except.ok UpsGate.downloadAndProcess

/-- Program position of one caller inside a lazy-initialization guard:
idle before entering, entered once inside (for the locked guard: holding the
lock, about to test the field), constructing after having observed the field
as None, ready once the guard body is done, and finished h after reading the
handle h from the field. -/
inductive Phase where
  | idle
  | entered
  | constructing
  | ready
  | finished (h : Nat)
deriving DecidableEq

/-- Whether a caller phase is finished. -/
def Phase.isFinished : Phase → Bool
  | Phase.finished _ => true
  | _ => false

/-- Pointwise update of the phase of caller i. -/
def updProc {K : Nat} (procs : Fin K → Phase) (i : Fin K) (p : Phase) : Fin K → Phase :=
  fun j => if j = i then p else procs j

/-- Concurrent system of K callers racing through
Embeddings._ensure_models (src/extensions/instances/embeddings/main.py lines
62-76): per-caller phases, the holder of self.model_lock, the shared
self.model field and the number of clip.load invocations.  The k-th
construction stores handle k, so distinct constructions yield distinct
handles. -/
structure LSys (K : Nat) where
  procs : Fin K → Phase
  lockHeld : Option (Fin K)
  model : Option Nat
  count : Nat

/-- Interleaving actions of caller i on the locked guard: acquire the lock
(with self.model_lock), test self.model under the lock, run clip.load and
assign the field, and read the handle after leaving the guard (lines 51-52
of the source read self.model outside the lock). -/
inductive LAct (K : Nat) where
  | enter (i : Fin K)
  | check (i : Fin K)
  | construct (i : Fin K)
  | finish (i : Fin K)

/-- One interleaving step of the locked guard.  An action whose guard is not
enabled (the caller is not at that position, or the lock is taken) leaves
the state unchanged, so a trace is an arbitrary list of attempted actions. -/
def stepL {K : Nat} (s : LSys K) : LAct K → LSys K
  | LAct.enter i =>
    match s.procs i, s.lockHeld with
    | Phase.idle, none =>
      { s with procs := updProc s.procs i Phase.entered, lockHeld := some i }
    | _, _ => s
  | LAct.check i =>
    match s.procs i with
    | Phase.entered =>
      match s.model with
      | none => { s with procs := updProc s.procs i Phase.constructing }
      | some _ => { s with procs := updProc s.procs i Phase.ready, lockHeld := none }
    | _ => s
  | LAct.construct i =>
    match s.procs i with
    | Phase.constructing =>
      { s with procs := updProc s.procs i Phase.ready, lockHeld := none,
               model := some s.count, count := s.count + 1 }
    | _ => s
  | LAct.finish i =>
    match s.procs i, s.model with
    | Phase.ready, some h => { s with procs := updProc s.procs i (Phase.finished h) }
    | _, _ => s

/-- Run of the locked guard over a trace of attempted actions. -/
def runL {K : Nat} (s : LSys K) : List (LAct K) → LSys K
  | [] => s
  | a :: tr => runL (stepL s a) tr

/-- Initial state of the locked guard: the resource is Uninitialized, the
lock is free and every caller is idle. -/
def initL (K : Nat) : LSys K :=
  { procs := fun _ => Phase.idle, lockHeld := none, model := none, count := 0 }

/-- Inductive invariant of the locked guard: the model field has been
assigned exactly count times and only ever holds handle 0; a caller between
lock acquisition and release holds the lock; a caller that decided to
construct saw the field as None and nobody can have filled it since (it
still holds the lock); and a finished caller read handle 0. -/
def LInv {K : Nat} (s : LSys K) : Prop :=
  ((s.count = 0 ∧ s.model = none) ∨ (s.count = 1 ∧ s.model = some 0))
  ∧ (∀ i, s.procs i = Phase.entered ∨ s.procs i = Phase.constructing → s.lockHeld = some i)
  ∧ (∀ i, s.procs i = Phase.constructing → s.model = none)
  ∧ (∀ i h, s.procs i = Phase.finished h → h = 0 ∧ s.model = some 0)

/-- Concurrent system of K callers racing through
BriaExtension._ensure_pipeline (src/extensions/instances/bria/main.py lines
90-93): the same shape as LSys but with no lock, because the source guards
the None test with no mutex. -/
structure BSys (K : Nat) where
  procs : Fin K → Phase
  pipe : Option Nat
  count : Nat

/-- Interleaving actions of caller i on the unlocked bria guard: test
self._pipe, run the pipeline constructor and assign the field, and read the
handle. -/
inductive BAct (K : Nat) where
  | check (i : Fin K)
  | construct (i : Fin K)
  | finish (i : Fin K)

/-- One interleaving step of the unlocked bria guard.  Between one caller
observing self._pipe as None and its assignment, another caller may observe
None as well. -/
def stepB {K : Nat} (s : BSys K) : BAct K → BSys K
  | BAct.check i =>
    match s.procs i with
    | Phase.idle =>
      match s.pipe with
      | none => { s with procs := updProc s.procs i Phase.constructing }
      | some _ => { s with procs := updProc s.procs i Phase.ready }
    | _ => s
  | BAct.construct i =>
    match s.procs i with
    | Phase.constructing =>
      { s with procs := updProc s.procs i Phase.ready,
               pipe := some s.count, count := s.count + 1 }
    | _ => s
  | BAct.finish i =>
    match s.procs i, s.pipe with
    | Phase.ready, some h => { s with procs := updProc s.procs i (Phase.finished h) }
    | _, _ => s

/-- Run of the unlocked bria guard over a trace of attempted actions. -/
def runB {K : Nat} (s : BSys K) : List (BAct K) → BSys K
  | [] => s
  | a :: tr => runB (stepB s a) tr

/-- Initial state of the unlocked bria guard. -/
def initB (K : Nat) : BSys K :=
  { procs := fun _ => Phase.idle, pipe := none, count := 0 }

/-- An interleaving of two concurrent callers of
BriaExtension._ensure_pipeline in which both observe self._pipe as None
before either assignment happens. -/
def briaRaceTrace : List (BAct 2) :=
  [BAct.check 0, BAct.check 1, BAct.construct 0, BAct.construct 1,
   BAct.finish 0, BAct.finish 1]

/-- A serialized schedule of two callers of the locked guard: caller 0
acquires the lock, constructs and finishes, then caller 1 acquires, sees the
cached model and finishes. -/
def lockTraceTwo : List (LAct 2) :=
  [LAct.enter 0, LAct.check 0, LAct.construct 0, LAct.finish 0,
   LAct.enter 1, LAct.check 1, LAct.finish 1]

/-- Modelled from the spec: the outcome carried by an IntentReply (spec
section 3), either Success with a value or Failure with a reason. -/
inductive Outcome where
  | success (v : Nat)
  | failure (reason : String)
deriving DecidableEq

/-- Modelled from the spec: how a pending intent was resolved, either by the
outcome of a matching reply or by channel closure (spec sections 4.1 and 7). -/
inductive Resolution where
  | outcome (o : Outcome)
  | channelClosed
deriving DecidableEq

/-- Modelled from the spec: the Intent Correlator state (spec section 4.1,
missing SDK module picteus_extension_sdk): the correlation ids of the
pending intents, and the log of resolutions performed, in order.  Each entry
of pending stands for one PendingIntent with its completion signal; an
entry appended to resolved stands for resolving that signal. -/
structure CorrState where
  pending : List Nat
  resolved : List (Nat × Resolution)
deriving DecidableEq

/-- Modelled from the spec: reply handling of the Intent Correlator (spec
sections 3 and 4.1): a reply whose correlationId matches a pending intent
resolves exactly that intent with the reply outcome and removes the entry;
a reply with no matching pending request is discarded, leaving the state
untouched and raising no error (the function is total). -/
def onReply (s : CorrState) (cid : Nat) (o : Outcome) : CorrState :=
  if cid ∈ s.pending then
    { pending := s.pending.erase cid,
      resolved := s.resolved ++ [(cid, Resolution.outcome o)] }
  else s

/-- Modelled from the spec: channel-closure handling of the Intent
Correlator (spec sections 4.1 and 8): every pending intent is resolved with
a channel-closed failure and the pending table is emptied. -/
def onClose (s : CorrState) : CorrState :=
  { pending := [],
    resolved := s.resolved ++ s.pending.map (fun c => (c, Resolution.channelClosed)) }

/-- Modelled from the spec: the Event Dispatcher state (spec section 4.4):
the events not yet taken from the Transport Channel, the events already
handed to handlers in the order the handlers observed them, and the
handlers still running (handling may overlap and finish out of order). -/
structure DispState (α : Type) where
  queue : List α
  started : List α
  inflight : List α

/-- Modelled from the spec: dispatcher scheduling actions (spec sections 4.4
and 5): deliver takes the next event from the channel in arrival order and
starts its handler; complete finishes the handler at an arbitrary inflight
position, so handlers may finish in any order relative to their start. -/
inductive DAct where
  | deliver
  | complete (i : Nat)

/-- Modelled from the spec: one scheduling step of the Event Dispatcher. -/
def dStep {α : Type} (s : DispState α) : DAct → DispState α
  | DAct.deliver =>
    match s.queue with
    | [] => s
    | e :: rest =>
      { queue := rest, started := s.started ++ [e], inflight := s.inflight ++ [e] }
  | DAct.complete i =>
    { s with inflight := s.inflight.eraseIdx i }

/-- Modelled from the spec: run of the Event Dispatcher over a schedule. -/
def dRun {α : Type} (s : DispState α) : List DAct → DispState α
  | [] => s
  | a :: tr => dRun (dStep s a) tr

/-- Modelled from the spec: initial dispatcher state with the events
received on the Transport Channel in arrival order. -/
def dInit {α : Type} (es : List α) : DispState α :=
  { queue := es, started := [], inflight := [] }

/-- Modelled from the spec: the result a submitter awaits from the Worker
Offload Pool (spec sections 4.3 and 7): the value of the callable, or an
OffloadFailure error value when the callable raised. -/
inductive OffloadResult where
  | ok (v : Nat)
  | offloadFailure (msg : String)
deriving DecidableEq

/-- Modelled from the spec: Worker Offload Pool state (spec section 4.3,
missing SDK method run_in_executor used by
src/extensions/instances/embeddings/main.py lines 40-41): the number of
offloaded tasks the pool has completed. -/
structure PoolState where
  completed : Nat
deriving DecidableEq

/-- Modelled from the spec: execution of one offloaded callable by the pool.
The callable is modelled by the result of running it: ok v when it returns
v, error m when it raises with message m.  Either way the pool completes the
task and hands the submitter a result value; a raise becomes an
OffloadFailure value rather than a crash of the worker. -/
def runTask (p : PoolState) : Except String Nat → PoolState × OffloadResult
  | Except.ok v => ({ completed := p.completed + 1 }, OffloadResult.ok v)
  | Except.error m => ({ completed := p.completed + 1 }, OffloadResult.offloadFailure m)

/-- Modelled from the spec: the Event Dispatcher control path driving one
offloaded callable per event through the pool (spec section 7): each
handler failure is caught at the handler boundary and recorded as an
outcome, and the loop continues with the remaining events. -/
def dispatchLoop (p : PoolState) : List (Except String Nat) → PoolState × List OffloadResult
  | [] => (p, [])
  | t :: ts =>
    let step := runTask p t
    let rest := dispatchLoop step.1 ts
    (rest.1, step.2 :: rest.2)

theorem updProc_same {K : Nat} (procs : Fin K → Phase) (i : Fin K) (p : Phase) :
    updProc procs i p i = p := by
  simp [updProc]

theorem updProc_other {K : Nat} (procs : Fin K → Phase) (i j : Fin K) (p : Phase)
    (h : j ≠ i) : updProc procs i p j = procs j := by
  simp [updProc, h]

theorem isFinished_iff (p : Phase) : p.isFinished = true ↔ ∃ h, p = Phase.finished h := by
  cases p <;> simp [Phase.isFinished]


theorem stepL_preserves_inv {K : Nat} (s : LSys K) (a : LAct K) (hinv : LInv s) :
    LInv (stepL s a) := by
  obtain ⟨hmc, hlock, hcon, hfin⟩ := hinv
  cases a with
  | enter i =>
    cases hp : s.procs i with
    | idle =>
      cases hl : s.lockHeld with
      | none =>
        have hstep : stepL s (LAct.enter i)
            = { s with procs := updProc s.procs i Phase.entered, lockHeld := some i } := by
          simp only [stepL, hp, hl]
        rw [hstep]
        dsimp only [LInv]
        refine ⟨hmc, ?_, ?_, ?_⟩
        · intro j hj
          by_cases hji : j = i
          · subst hji; rfl
          · rw [updProc_other _ _ _ _ hji] at hj
            have h2 := hlock j hj
            rw [hl] at h2
            simp at h2
        · intro j hj
          by_cases hji : j = i
          · subst hji; rw [updProc_same] at hj; simp at hj
          · rw [updProc_other _ _ _ _ hji] at hj
            exact hcon j hj
        · intro j hh hj
          by_cases hji : j = i
          · subst hji; rw [updProc_same] at hj; simp at hj
          · rw [updProc_other _ _ _ _ hji] at hj
            exact hfin j hh hj
      | some j0 =>
        have hstep : stepL s (LAct.enter i) = s := by
          simp only [stepL, hp, hl]
        rw [hstep]
        exact ⟨hmc, hlock, hcon, hfin⟩
    | entered =>
      have hstep : stepL s (LAct.enter i) = s := by
        simp only [stepL, hp]
      rw [hstep]
      exact ⟨hmc, hlock, hcon, hfin⟩
    | constructing =>
      have hstep : stepL s (LAct.enter i) = s := by
        simp only [stepL, hp]
      rw [hstep]
      exact ⟨hmc, hlock, hcon, hfin⟩
    | ready =>
      have hstep : stepL s (LAct.enter i) = s := by
        simp only [stepL, hp]
      rw [hstep]
      exact ⟨hmc, hlock, hcon, hfin⟩
    | finished h =>
      have hstep : stepL s (LAct.enter i) = s := by
        simp only [stepL, hp]
      rw [hstep]
      exact ⟨hmc, hlock, hcon, hfin⟩
  | check i =>
    cases hp : s.procs i with
    | entered =>
      cases hm : s.model with
      | none =>
        have hstep : stepL s (LAct.check i)
            = { s with procs := updProc s.procs i Phase.constructing } := by
          simp only [stepL, hp, hm]
        rw [hstep]
        dsimp only [LInv]
        refine ⟨hmc, ?_, ?_, ?_⟩
        · intro j hj
          by_cases hji : j = i
          · subst hji; exact hlock j (Or.inl hp)
          · rw [updProc_other _ _ _ _ hji] at hj
            exact hlock j hj
        · intro j hj
          exact hm
        · intro j hh hj
          by_cases hji : j = i
          · subst hji; rw [updProc_same] at hj; simp at hj
          · rw [updProc_other _ _ _ _ hji] at hj
            exact hfin j hh hj
      | some v =>
        have hstep : stepL s (LAct.check i)
            = { s with procs := updProc s.procs i Phase.ready, lockHeld := none } := by
          simp only [stepL, hp, hm]
        rw [hstep]
        dsimp only [LInv]
        refine ⟨hmc, ?_, ?_, ?_⟩
        · intro j hj
          by_cases hji : j = i
          · subst hji; rw [updProc_same] at hj; simp at hj
          · rw [updProc_other _ _ _ _ hji] at hj
            have h2 := hlock j hj
            have h3 := hlock i (Or.inl hp)
            rw [h3] at h2
            have h4 : i = j := by
              injection h2
            exact absurd h4.symm hji
        · intro j hj
          by_cases hji : j = i
          · subst hji; rw [updProc_same] at hj; simp at hj
          · rw [updProc_other _ _ _ _ hji] at hj
            have h2 := hcon j hj
            rw [hm] at h2
            simp at h2
        · intro j hh hj
          by_cases hji : j = i
          · subst hji; rw [updProc_same] at hj; simp at hj
          · rw [updProc_other _ _ _ _ hji] at hj
            exact hfin j hh hj
    | idle =>
      have hstep : stepL s (LAct.check i) = s := by
        simp only [stepL, hp]
      rw [hstep]
      exact ⟨hmc, hlock, hcon, hfin⟩
    | constructing =>
      have hstep : stepL s (LAct.check i) = s := by
        simp only [stepL, hp]
      rw [hstep]
      exact ⟨hmc, hlock, hcon, hfin⟩
    | ready =>
      have hstep : stepL s (LAct.check i) = s := by
        simp only [stepL, hp]
      rw [hstep]
      exact ⟨hmc, hlock, hcon, hfin⟩
    | finished h =>
      have hstep : stepL s (LAct.check i) = s := by
        simp only [stepL, hp]
      rw [hstep]
      exact ⟨hmc, hlock, hcon, hfin⟩
  | construct i =>
    cases hp : s.procs i with
    | constructing =>
      have hmnone : s.model = none := hcon i hp
      have hcount : s.count = 0 := by
        rcases hmc with ⟨hc, _⟩ | ⟨_, hm2⟩
        · exact hc
        · rw [hmnone] at hm2; simp at hm2
      have hstep : stepL s (LAct.construct i)
          = { s with procs := updProc s.procs i Phase.ready, lockHeld := none,
                     model := some s.count, count := s.count + 1 } := by
        simp only [stepL, hp]
      rw [hstep]
      dsimp only [LInv]
      refine ⟨?_, ?_, ?_, ?_⟩
      · right
        rw [hcount]
        exact ⟨rfl, rfl⟩
      · intro j hj
        by_cases hji : j = i
        · subst hji; rw [updProc_same] at hj; simp at hj
        · rw [updProc_other _ _ _ _ hji] at hj
          have h2 := hlock j hj
          have h3 := hlock i (Or.inr hp)
          rw [h3] at h2
          have h4 : i = j := by
            injection h2
          exact absurd h4.symm hji
      · intro j hj
        by_cases hji : j = i
        · subst hji; rw [updProc_same] at hj; simp at hj
        · rw [updProc_other _ _ _ _ hji] at hj
          have h2 := hlock j (Or.inr hj)
          have h3 := hlock i (Or.inr hp)
          rw [h3] at h2
          have h4 : i = j := by
            injection h2
          exact absurd h4.symm hji
      · intro j hh hj
        by_cases hji : j = i
        · subst hji; rw [updProc_same] at hj; simp at hj
        · rw [updProc_other _ _ _ _ hji] at hj
          have h2 := (hfin j hh hj).2
          rw [hmnone] at h2
          simp at h2
    | idle =>
      have hstep : stepL s (LAct.construct i) = s := by
        simp only [stepL, hp]
      rw [hstep]
      exact ⟨hmc, hlock, hcon, hfin⟩
    | entered =>
      have hstep : stepL s (LAct.construct i) = s := by
        simp only [stepL, hp]
      rw [hstep]
      exact ⟨hmc, hlock, hcon, hfin⟩
    | ready =>
      have hstep : stepL s (LAct.construct i) = s := by
        simp only [stepL, hp]
      rw [hstep]
      exact ⟨hmc, hlock, hcon, hfin⟩
    | finished h =>
      have hstep : stepL s (LAct.construct i) = s := by
        simp only [stepL, hp]
      rw [hstep]
      exact ⟨hmc, hlock, hcon, hfin⟩
  | finish i =>
    cases hp : s.procs i with
    | ready =>
      cases hm : s.model with
      | none =>
        have hstep : stepL s (LAct.finish i) = s := by
          simp only [stepL, hp, hm]
        rw [hstep]
        exact ⟨hmc, hlock, hcon, hfin⟩
      | some v =>
        have hv : v = 0 := by
          rcases hmc with ⟨_, hm2⟩ | ⟨_, hm2⟩
          · rw [hm] at hm2; simp at hm2
          · rw [hm] at hm2
            injection hm2
        have hstep : stepL s (LAct.finish i)
            = { s with procs := updProc s.procs i (Phase.finished v) } := by
          simp only [stepL, hp, hm]
        rw [hstep]
        dsimp only [LInv]
        refine ⟨hmc, ?_, ?_, ?_⟩
        · intro j hj
          by_cases hji : j = i
          · subst hji; rw [updProc_same] at hj; simp at hj
          · rw [updProc_other _ _ _ _ hji] at hj
            exact hlock j hj
        · intro j hj
          by_cases hji : j = i
          · subst hji; rw [updProc_same] at hj; simp at hj
          · rw [updProc_other _ _ _ _ hji] at hj
            exact hcon j hj
        · intro j hh hj
          by_cases hji : j = i
          · subst hji
            rw [updProc_same] at hj
            have hvh : v = hh := by
              injection hj
            constructor
            · rw [← hvh, hv]
            · rw [hm, hv]
          · rw [updProc_other _ _ _ _ hji] at hj
            exact hfin j hh hj
    | idle =>
      have hstep : stepL s (LAct.finish i) = s := by
        simp only [stepL, hp]
      rw [hstep]
      exact ⟨hmc, hlock, hcon, hfin⟩
    | entered =>
      have hstep : stepL s (LAct.finish i) = s := by
        simp only [stepL, hp]
      rw [hstep]
      exact ⟨hmc, hlock, hcon, hfin⟩
    | constructing =>
      have hstep : stepL s (LAct.finish i) = s := by
        simp only [stepL, hp]
      rw [hstep]
      exact ⟨hmc, hlock, hcon, hfin⟩
    | finished h =>
      have hstep : stepL s (LAct.finish i) = s := by
        simp only [stepL, hp]
      rw [hstep]
      exact ⟨hmc, hlock, hcon, hfin⟩

theorem runL_preserves_inv {K : Nat} (tr : List (LAct K)) (s : LSys K) (hinv : LInv s) :
    LInv (runL s tr) := by
  induction tr generalizing s with
  | nil => exact hinv
  | cons a tr ih => exact ih (stepL s a) (stepL_preserves_inv s a hinv)

theorem initL_inv (K : Nat) : LInv (initL K) := by
  refine ⟨Or.inl ⟨rfl, rfl⟩, ?_, ?_, ?_⟩
  · intro i hi
    rcases hi with hi | hi <;> simp [initL] at hi
  · intro i hi
    simp [initL] at hi
  · intro i h hi
    simp [initL] at hi

/-- Claim C2 (amended): when K callers concurrently demand the uninitialized
shared resource through the lock-guarded Embeddings._ensure_models, the
constructor runs exactly once under every interleaving and all callers that
complete observe the same handle.  (The unguarded
BriaExtension._ensure_pipeline does not give this under overlapping callers;
see the counterexample theorem.) -/
theorem embeddings_lock_single_construction (K : Nat) (tr : List (LAct K)) (hK : 0 < K)
    (hall : ∀ i, ((runL (initL K) tr).procs i).isFinished = true) :
    (runL (initL K) tr).count = 1
    ∧ ∀ i j hi hj, (runL (initL K) tr).procs i = Phase.finished hi →
        (runL (initL K) tr).procs j = Phase.finished hj → hi = hj := by
  obtain ⟨hmc, hlock, hcon, hfin⟩ := runL_preserves_inv tr (initL K) (initL_inv K)
  have h0 := hall ⟨0, hK⟩
  rw [isFinished_iff] at h0
  obtain ⟨h, hph⟩ := h0
  have hmodel := (hfin ⟨0, hK⟩ h hph).2
  constructor
  · rcases hmc with ⟨_, hm2⟩ | ⟨hc, _⟩
    · rw [hmodel] at hm2
      simp at hm2
    · exact hc
  · intro i j hi hj hpi hpj
    rw [(hfin i hi hpi).1, (hfin j hj hpj).1]

/-- Witness for C2: a concrete run of two callers of the locked guard in
which both finish; the theorem yields a single construction. -/
theorem embeddings_lock_single_construction_witness :
    0 < 2 ∧ (runL (initL 2) lockTraceTwo).count = 1 :=
  ⟨by decide, (embeddings_lock_single_construction 2 lockTraceTwo (by decide) (by decide)).1⟩

/-- Counterexample for C2 as stated: on the unguarded
BriaExtension._ensure_pipeline, the interleaving briaRaceTrace of two
concurrent first-use callers makes both observe self._pipe as None, so the
pipeline constructor is invoked twice (count = 2, not exactly once), even
though both callers complete. -/
theorem bria_concurrent_double_construction :
    (runB (initB 2) briaRaceTrace).count = 2
    ∧ ((runB (initB 2) briaRaceTrace).procs 0).isFinished = true
    ∧ ((runB (initB 2) briaRaceTrace).procs 1).isFinished = true := by
  decide

/-- Claim C3: after a constructor has completed successfully once, every
later getOrInit call returns the same cached state and handle and the
constructor is never executed again, for all three guards: the call counter
is unchanged and no error is produced, whatever the failure behaviour of
the constructor would be on a later call (it is not invoked). -/
theorem guard_caches_after_success (se : EmbState) (sb : BriaState) (su : UpsState)
    (b bb b1 b2 : Bool) :
    ((ensure_models false se).1.model.isSome = true
     ∧ ensure_models b (ensure_models false se).1 = ((ensure_models false se).1, none))
    ∧ ((ensure_pipeline_bria false sb).1.pipe.isSome = true
       ∧ ensure_pipeline_bria bb (ensure_pipeline_bria false sb).1
           = ((ensure_pipeline_bria false sb).1, none))
    ∧ ((ensure_pipeline_upscaler false false su).1.pipeline.isSome = true
       ∧ ensure_pipeline_upscaler b1 b2 (ensure_pipeline_upscaler false false su).1
           = ((ensure_pipeline_upscaler false false su).1, none)) := by
  refine ⟨⟨?_, ?_⟩, ⟨?_, ?_⟩, ⟨?_, ?_⟩⟩
  · cases hm : se.model <;> simp [ensure_models, hm]
  · cases hm : se.model <;> simp [ensure_models, hm]
  · cases hm : sb.pipe <;> simp [ensure_pipeline_bria, hm]
  · cases hm : sb.pipe <;> simp [ensure_pipeline_bria, hm]
  · cases hm : su.pipeline <;> simp [ensure_pipeline_upscaler, hm]
  · cases hm : su.pipeline <;> simp [ensure_pipeline_upscaler, hm]

/-- Counterexample for C4 as stated: in
StableDiffusionUpscalerExtension._ensure_pipeline, when from_pretrained
succeeds but the move to the device raises, the failure is surfaced, yet the
guard does not return to Uninitialized: self._pipeline keeps the partially
constructed pipeline, and the next call performs no retry (the
from_pretrained counter stays at 1 and the partial handle stays cached). -/
theorem upscaler_to_device_failure_poisons :
    (ensure_pipeline_upscaler false true { pipeline := none, fromPretrainedCalls := 0 }).2
      = some (PyErr.raised "pipeline.to device failed")
    ∧ (ensure_pipeline_upscaler false true { pipeline := none, fromPretrainedCalls := 0 }).1.pipeline
      = some (UpHandle.loaded 0)
    ∧ ensure_pipeline_upscaler false false
        (ensure_pipeline_upscaler false true { pipeline := none, fromPretrainedCalls := 0 }).1
      = ((ensure_pipeline_upscaler false true { pipeline := none, fromPretrainedCalls := 0 }).1, none)
    ∧ (ensure_pipeline_upscaler false false
        (ensure_pipeline_upscaler false true { pipeline := none, fromPretrainedCalls := 0 }).1).1.fromPretrainedCalls
      = 1 := by
  decide

/-- Claim C4 (amended): when the constructor raises in its initial load call
(clip.load in Embeddings._ensure_models, from_pretrained in the upscaler),
the failure is surfaced to the caller and the guard remains Uninitialized,
so a subsequent call runs the constructor again and can succeed; only the
device-move failure of the upscaler, which happens after self._pipeline was
assigned, caches the partial construction (see the counterexample). -/
theorem load_failure_leaves_guard_retryable (se : EmbState) (su : UpsState)
    (hse : se.model = none) (hsu : su.pipeline = none) :
    (ensure_models true se).1.model = none
    ∧ (ensure_models true se).2 = some (PyErr.raised "clip.load failed")
    ∧ (ensure_models false (ensure_models true se).1).1.model = some (se.loadCalls + 1)
    ∧ (ensure_models false (ensure_models true se).1).1.loadCalls = se.loadCalls + 2
    ∧ (ensure_pipeline_upscaler true false su).1.pipeline = none
    ∧ (ensure_pipeline_upscaler true false su).2 = some (PyErr.raised "from_pretrained failed")
    ∧ (ensure_pipeline_upscaler false false (ensure_pipeline_upscaler true false su).1).1.pipeline
        = some (UpHandle.onDevice (su.fromPretrainedCalls + 1))
    ∧ (ensure_pipeline_upscaler false false (ensure_pipeline_upscaler true false su).1).1.fromPretrainedCalls
        = su.fromPretrainedCalls + 2 := by
  simp [ensure_models, ensure_pipeline_upscaler, hse, hsu]

/-- Witness for C4 (amended): the retry behaviour at the initial state of
both guards. -/
theorem load_failure_leaves_guard_retryable_witness :
    (ensure_models true { model := none, loadCalls := 0 }).1.model = none
    ∧ (ensure_models false (ensure_models true { model := none, loadCalls := 0 }).1).1.loadCalls = 2 := by
  have h := load_failure_leaves_guard_retryable { model := none, loadCalls := 0 }
    { pipeline := none, fromPretrainedCalls := 0 } rfl rfl
  exact ⟨h.1, by simpa using h.2.2.2.1⟩

/-- Claim C9: in example-python, the first branch condition of on_event is
true for every event kind, because its last two disjuncts are the bare
truthy constants NotificationEvent.IMAGE_COMPUTE_TAGS and
NotificationEvent.IMAGE_COMPUTE_FEATURES; hence every event, including
PROCESS_RUN_COMMAND and IMAGE_RUN_COMMAND, enters the image branch, which
begins by reading value with key id (a KeyError when the payload lacks the
key), and the elif branches are unreachable. -/
theorem example_image_branch_always_taken (event : String) :
    example_on_event_cond event = true
    ∧ example_on_event_route event = ExampleBranch.imageBranch
    ∧ example_on_event_route event ≠ ExampleBranch.processCommandBranch
    ∧ example_on_event_route event ≠ ExampleBranch.imageCommandBranch
    ∧ example_on_event_first_action event [] = Except.error (PyErr.keyError "id")
    ∧ example_on_event_first_action event [("id", "img1")]
        = Except.ok (ExampleAction.readImageId "img1") := by
  have hcond : example_on_event_cond event = true := by
    have h2 : pyTruthy NotificationEvent.IMAGE_COMPUTE_FEATURES = true := by decide
    unfold example_on_event_cond
    rw [h2, Bool.or_true]
  refine ⟨hcond, ?_, ?_, ?_, ?_, ?_⟩
  · simp [example_on_event_route, hcond]
  · simp [example_on_event_route, hcond]
  · simp [example_on_event_route, hcond]
  · simp [example_on_event_first_action, hcond, pyLookup]
  · simp [example_on_event_first_action, hcond, pyLookup]

/-- Counterexample for C7 as stated: TEXT_COMPUTE_EMBEDDINGS is not among
the kinds example-python declares handling for, yet dispatching it in
example-python is not a no-op: the always-true first condition routes it
into the image branch, whose first statement reads value with key id and
raises KeyError on a payload without that key. -/
theorem example_unmatched_kind_not_ignored :
    example_on_event_route NotificationEvent.TEXT_COMPUTE_EMBEDDINGS = ExampleBranch.imageBranch
    ∧ example_on_event_route NotificationEvent.TEXT_COMPUTE_EMBEDDINGS ≠ ExampleBranch.noOp
    ∧ example_on_event_first_action NotificationEvent.TEXT_COMPUTE_EMBEDDINGS []
        = Except.error (PyErr.keyError "id") := by
  refine ⟨rfl, by decide, rfl⟩

/-- Claim C7 (amended): in template-python and flux, an event whose kind is
not in the declared EventKind set falls through every branch of on_event, so
dispatching it is a no-op returning None, without error and without handler
side effect; in example-python this fails because the always-true first
condition routes every kind into the image branch (see the counterexample). -/
theorem unmatched_kinds_ignored_flux_template (e : String) :
    (e ∉ template_declared_kinds → template_on_event_route e = TemplateBranch.noOp)
    ∧ (e ∉ flux_declared_kinds → flux_on_event_route e = FluxBranch.noOp) := by
  constructor
  · intro h
    simp only [template_declared_kinds, List.mem_cons, List.not_mem_nil, or_false,
      not_or] at h
    obtain ⟨h1, h2, h3, h4⟩ := h
    simp [template_on_event_route, h1, h2, h3, h4]
  · intro h
    simp only [flux_declared_kinds, List.mem_cons, List.not_mem_nil, or_false,
      not_or] at h
    simp [flux_on_event_route, h]

/-- Witness for C7 (amended): TEXT_COMPUTE_EMBEDDINGS is unmatched in both
template-python and flux and is ignored by both. -/
theorem unmatched_kinds_ignored_flux_template_witness :
    template_on_event_route NotificationEvent.TEXT_COMPUTE_EMBEDDINGS = TemplateBranch.noOp
    ∧ flux_on_event_route NotificationEvent.TEXT_COMPUTE_EMBEDDINGS = FluxBranch.noOp := by
  have h := unmatched_kinds_ignored_flux_template NotificationEvent.TEXT_COMPUTE_EMBEDDINGS
  exact ⟨h.1 (by decide), h.2 (by decide)⟩

/-- Claim C10: in the stable-diffusion-upscaler, handling an
IMAGE_RUN_COMMAND event reaches the image download and processing only when
the _maximum_pixels attribute holds a numeric value, which only _setup
assigns; when _setup never ran the attribute does not exist and the
comparison raises AttributeError, when the stored setting is None it raises
TypeError, in both cases before image_download is reached; and _setup itself
raises KeyError when the settings lack the maximumPixels key. -/
theorem upscaler_gate_requires_numeric_setting :
    (∀ (mp : Option (Option Int)) (w h : Int),
      handle_image_gate mp w h = Except.ok UpsGate.downloadAndProcess →
        ∃ m, mp = some (some m))
    ∧ (∀ w h : Int,
        handle_image_gate none w h = Except.error (PyErr.attributeError "_maximum_pixels"))
    ∧ (∀ w h : Int,
        handle_image_gate (some none) w h
          = Except.error (PyErr.typeError "int gt NoneType unsupported"))
    ∧ (∀ settings : List (String × Option Int),
        pyLookup settings "maximumPixels" = none →
          upscaler_setup settings = Except.error (PyErr.keyError "maximumPixels"))
    ∧ (∀ m w h : Int, w * h > m →
        handle_image_gate (some (some m)) w h = Except.ok UpsGate.rejectedTooLarge)
    ∧ (∀ m w h : Int, ¬ w * h > m →
        handle_image_gate (some (some m)) w h = Except.ok UpsGate.downloadAndProcess) := by
  refine ⟨?_, ?_, ?_, ?_, ?_, ?_⟩
  · intro mp w h hgate
    rcases mp with _ | mp
    · simp [handle_image_gate] at hgate
    · rcases mp with _ | m
      · simp [handle_image_gate] at hgate
      · exact ⟨m, rfl⟩
  · intro w h
    rfl
  · intro w h
    rfl
  · intro settings hs
    simp [upscaler_setup, hs]
  · intro m w h hgt
    simp [handle_image_gate, hgt]
  · intro m w h hle
    simp [handle_image_gate, hle]

/-- Witness for C10: the gate passes with the numeric setting 100 on a 5 by
5 image, and _setup on empty settings raises KeyError. -/
theorem upscaler_gate_requires_numeric_setting_witness :
    (∃ m : Int, (some (some 100) : Option (Option Int)) = some (some m))
    ∧ upscaler_setup [] = Except.error (PyErr.keyError "maximumPixels") := by
  have h := upscaler_gate_requires_numeric_setting
  exact ⟨h.1 (some (some 100)) 5 5 rfl, h.2.2.2.1 [] rfl⟩

/-- Claim C1: for a pending table of distinct correlation ids, a reply whose
correlationId matches a pending intent is delivered to exactly that caller,
exactly once: the resolution log gains exactly that delivery, the entry
leaves the pending table, every other pending intent is undisturbed, and
any later reply with the same correlationId is discarded; a reply whose
correlationId has no matching pending request leaves the correlator state
completely unchanged (and onReply is total, so the stray reply is not a
fatal error). -/
theorem intent_reply_delivery (s : CorrState) (cid : Nat) (o : Outcome)
    (hnodup : s.pending.Nodup) :
    (cid ∈ s.pending →
      (onReply s cid o).resolved = s.resolved ++ [(cid, Resolution.outcome o)]
      ∧ cid ∉ (onReply s cid o).pending
      ∧ (∀ c, c ≠ cid → (c ∈ (onReply s cid o).pending ↔ c ∈ s.pending))
      ∧ ∀ o2, onReply (onReply s cid o) cid o2 = onReply s cid o)
    ∧ (cid ∉ s.pending → onReply s cid o = s) := by
  constructor
  · intro hmem
    have hout : cid ∉ (onReply s cid o).pending := by
      simp only [onReply, if_pos hmem]
      intro hin
      exact absurd ((hnodup.mem_erase_iff).1 hin).1 (by simp)
    refine ⟨?_, hout, ?_, ?_⟩
    · simp only [onReply, if_pos hmem]
    · intro c hc
      simp only [onReply, if_pos hmem]
      exact List.mem_erase_of_ne hc
    · intro o2
      have hdrop : ∀ t : CorrState, cid ∉ t.pending → onReply t cid o2 = t := by
        intro t ht
        simp only [onReply, if_neg ht]
      exact hdrop _ hout
  · intro hmem
    simp only [onReply, if_neg hmem]

/-- Witness for C1: the spec scenario with one intent pending under
correlation id 42: a reply for 43 arrives first and is discarded without
resolving 42, then the reply for 42 resolves it. -/
theorem intent_reply_delivery_witness :
    onReply { pending := [42], resolved := [] } 43 (Outcome.success 9)
      = { pending := [42], resolved := [] }
    ∧ (onReply { pending := [42], resolved := [] } 42 (Outcome.success 7)).resolved
      = [(42, Resolution.outcome (Outcome.success 7))] := by
  have h1 := intent_reply_delivery { pending := [42], resolved := [] } 43
    (Outcome.success 9) (by decide)
  have h2 := intent_reply_delivery { pending := [42], resolved := [] } 42
    (Outcome.success 7) (by decide)
  exact ⟨h1.2 (by decide), by simpa using (h2.1 (by decide)).1⟩

/-- Claim C5: when the Transport Channel closes with intents pending, the
pending table is emptied and every one of the pending intents is resolved
with the channel-closed failure (the resolution log grows by exactly the
number of pending intents, so none remains pending indefinitely). -/
theorem channel_close_resolves_all_pending (s : CorrState) :
    (onClose s).pending = []
    ∧ (∀ cid, cid ∈ s.pending → (cid, Resolution.channelClosed) ∈ (onClose s).resolved)
    ∧ (onClose s).resolved.length = s.resolved.length + s.pending.length := by
  refine ⟨rfl, ?_, ?_⟩
  · intro cid hmem
    simp only [onClose, List.mem_append]
    right
    exact List.mem_map_of_mem _ hmem
  · simp [onClose]

/-- Witness for C5: closing the channel with intents 42 and 43 pending
resolves both with the channel-closed failure and empties the table. -/
theorem channel_close_resolves_all_pending_witness :
    (onClose { pending := [42, 43], resolved := [] }).pending = []
    ∧ (42, Resolution.channelClosed) ∈ (onClose { pending := [42, 43], resolved := [] }).resolved
    ∧ (43, Resolution.channelClosed) ∈ (onClose { pending := [42, 43], resolved := [] }).resolved := by
  have h := channel_close_resolves_all_pending { pending := [42, 43], resolved := [] }
  exact ⟨h.1, h.2.1 42 (by decide), h.2.1 43 (by decide)⟩

theorem dStep_preserves_order {α : Type} (s : DispState α) (a : DAct) :
    (dStep s a).started ++ (dStep s a).queue = s.started ++ s.queue := by
  cases a with
  | deliver =>
    cases hq : s.queue with
    | nil => simp [dStep, hq]
    | cons e rest => simp [dStep, hq]
  | complete i => simp [dStep]

/-- Claim C6: for every sequence of events received on the Transport Channel
and every dispatcher schedule, including schedules where handlers complete
out of order, the sequence of events handed to handlers followed by the
events still queued equals the arrival sequence, so handlers observe events
in exactly the order received and no reordering ever occurs. -/
theorem event_delivery_preserves_arrival_order {α : Type} (es : List α) (tr : List DAct) :
    (dRun (dInit es) tr).started ++ (dRun (dInit es) tr).queue = es := by
  suffices h : ∀ s : DispState α, (dRun s tr).started ++ (dRun s tr).queue
      = s.started ++ s.queue by
    simpa [dInit] using h (dInit es)
  induction tr with
  | nil => intro s; rfl
  | cons a tr ih =>
    intro s
    have h2 := ih (dStep s a)
    calc (dRun (dStep s a) tr).started ++ (dRun (dStep s a) tr).queue
        = (dStep s a).started ++ (dStep s a).queue := h2
      _ = s.started ++ s.queue := dStep_preserves_order s a

theorem dispatchLoop_keeps_processing (p : PoolState) (ts : List (Except String Nat)) :
    (dispatchLoop p ts).2.length = ts.length
    ∧ (dispatchLoop p ts).1.completed = p.completed + ts.length := by
  induction ts generalizing p with
  | nil => simp [dispatchLoop]
  | cons t ts ih =>
    cases t with
    | ok v =>
      have h2 := ih { completed := p.completed + 1 }
      refine ⟨?_, ?_⟩
      · simp [dispatchLoop, runTask, h2.1]
      · simp [dispatchLoop, runTask, h2.2]
        omega
    | error m =>
      have h2 := ih { completed := p.completed + 1 }
      refine ⟨?_, ?_⟩
      · simp [dispatchLoop, runTask, h2.1]
      · simp [dispatchLoop, runTask, h2.2]
        omega

/-- Claim C8: when a callable submitted to the Worker Offload Pool raises,
the submitter receives the OffloadFailure error value as the head outcome
rather than an unhandled crash, and neither the pool nor the dispatcher
terminates: every one of the remaining events is still processed and the
pool completes every task, including the failing one. -/
theorem offload_failure_is_error_value (p : PoolState) (m : String)
    (ts : List (Except String Nat)) :
    (dispatchLoop p (Except.error m :: ts)).2.head? = some (OffloadResult.offloadFailure m)
    ∧ (dispatchLoop p (Except.error m :: ts)).2.length = ts.length + 1
    ∧ (dispatchLoop p (Except.error m :: ts)).1.completed = p.completed + ts.length + 1 := by
  have h := dispatchLoop_keeps_processing { completed := p.completed + 1 } ts
  refine ⟨?_, ?_, ?_⟩
  · simp [dispatchLoop, runTask]
  · simp [dispatchLoop, runTask, h.1]
  · simp [dispatchLoop, runTask, h.2]
    omega
